import Mathlib

/-!
Verification of the WorkPolish response-decomposition routine and the
interaction recorder, as a shallow embedding of `src/app.py` (the
`parse_polished_and_notes`, `extract_subject` functions and the inline
polish-handler pipeline of lines 188-243) and `src/storage_sqlite.py`
(`save_record`).

Strings are modelled as `List Char`.  Python's `re` escapes `\s` and the
`str.strip`/`str.split` whitespace set are modelled as the six ASCII
whitespace characters (space, tab, newline, carriage return, vertical tab,
form feed); `str.splitlines` break characters are modelled including the
further ASCII/Unicode break characters Python recognises.  Each regular
expression of the source is compiled by hand into a deterministic scanning
function that follows the leftmost-match and greedy/lazy backtracking
semantics of the Python `re` engine for that concrete pattern.
-/

set_option maxRecDepth 100000

/-- Convert a string literal to the `List Char` representation used throughout. -/
def cs (s : String) : List Char := s.toList

/-- The whitespace class of Python's `str.strip()` and of `\s` in `re`
(ASCII part): space, tab, newline, carriage return, vertical tab, form feed. -/
def isPySpace (c : Char) : Bool :=
  c = ' ' || c = '\t' || c = '\n' || c = '\r' || c = '\x0b' || c = '\x0c'

/-- Remove trailing characters satisfying `p` (Python `str.rstrip` restricted
to a character class). -/
def rstripP (p : Char → Bool) : List Char → List Char
  | [] => []
  | c :: rest =>
    let r := rstripP p rest
    if r.isEmpty then (if p c then [] else [c]) else c :: r

/-- Remove leading and trailing characters satisfying `p`
(Python `str.strip(chars)`). -/
def stripP (p : Char → Bool) (l : List Char) : List Char :=
  rstripP p (l.dropWhile p)

/-- Python `str.strip()` (no argument): strip whitespace from both ends. -/
def pyStrip (l : List Char) : List Char := stripP isPySpace l

/-- Python `str.strip('"')`: strip ALL leading and trailing quote characters. -/
def pyStripQuotes (l : List Char) : List Char := stripP (fun c => c = '"') l

/-- Split a list at every maximal nonempty run of characters satisfying `p`,
mirroring `re.split` with a pattern of the form `X+` for a character class
`X` (e.g. `\n+` or `[\n\r]+`).  Runs at the edges produce empty segments,
exactly as in Python. -/
def splitRuns (p : Char → Bool) : List Char → List (List Char)
  | [] => [[]]
  | c :: rest =>
    let r := splitRuns p rest
    if p c then
      match rest with
      | [] => [] :: r
      | d :: _ => if p d then r else [] :: r
    else
      match r with
      | [] => [[c]]
      | seg :: segs => (c :: seg) :: segs

/-- Marker characters of `re.sub(r"^\s*[-\d\.\)]+\s*", "", s)`
(pattern-1 note cleaning, app.py line 114). -/
def isMk1 (c : Char) : Bool := c = '-' || c.isDigit || c = '.' || c = ')'

/-- Marker characters of `re.sub(r"^\s*[-\*\d\.\)\(]+\s*", "", s)`
(cleanup-stage note cleaning, app.py lines 214/229/237). -/
def isMk2 (c : Char) : Bool :=
  c = '-' || c = '*' || c.isDigit || c = '.' || c = ')' || c = '('

/-- `re.sub(r"^\s*[MK]+\s*", "", s)` for a marker class `MK` disjoint from
whitespace: if, after leading whitespace, at least one marker character is
present, remove the whitespace run, the marker run and one following
whitespace run; otherwise the string is returned unchanged. -/
def stripMarker (isMk : Char → Bool) (s : List Char) : List Char :=
  let t := s.dropWhile isPySpace
  let mk := t.takeWhile isMk
  if mk.isEmpty then s else (t.dropWhile isMk).dropWhile isPySpace

/-- Note cleaning of the pattern-1 branch (app.py line 114): split on runs of
`\n`, keep segments with nonempty `strip()`, remove a leading
`[-\d\.\)]+` marker and strip each. -/
def notesClean1 (notesRaw : List Char) : List (List Char) :=
  ((splitRuns (fun c => c = '\n') notesRaw).filter
      (fun s => !(pyStrip s).isEmpty)).map
    (fun s => pyStrip (stripMarker isMk1 s))

/-- Note cleaning of the pattern-2 and pattern-3 branches (app.py lines
122/129): split on runs of `[\n\r]`, keep segments with nonempty `strip()`,
strip each; NO marker removal happens on these branches. -/
def notesPlain (notesRaw : List Char) : List (List Char) :=
  ((splitRuns (fun c => c = '\n' || c = '\r') notesRaw).filter
      (fun s => !(pyStrip s).isEmpty)).map pyStrip

/-- Note cleaning used by the cleanup stage and the fallback chain
(app.py lines 213-215, 227-230, 235-238): split on runs of `[\n\r]`, keep
segments with nonempty `strip()`, remove a leading `[-\*\d\.\)\(]+` marker
and strip each. -/
def notesClean2 (trailing : List Char) : List (List Char) :=
  ((splitRuns (fun c => c = '\n' || c = '\r') trailing).filter
      (fun s => !(pyStrip s).isEmpty)).map
    (fun s => pyStrip (stripMarker isMk2 s))

/-- Matcher for the two-marker `(?:\n\s*2[\)\.])` of pattern 1 at the head of
the list: a newline, a maximal whitespace run, `2`, then `)` or `.`.
Returns the remainder after the marker (the start of group 2). -/
def twoMarkerAt : List Char → Option (List Char)
  | '\n' :: rest =>
    match rest.dropWhile isPySpace with
    | '2' :: c :: tail => if c = ')' || c = '.' then some tail else none
    | _ => none
  | _ => none

/-- Lazy search for the two-marker inside group 1 of pattern 1: the group is
extended one character at a time until `(?:\n\s*2[\)\.])` matches.  Returns
(group-1 suffix, group 2). -/
def findTwoMarker : List Char → Option (List Char × List Char)
  | [] => none
  | c :: rest =>
    match twoMarkerAt (c :: rest) with
    | some after => some ([], after)
    | none => (findTwoMarker rest).map (fun x => (c :: x.1, x.2))

/-- After the `(?:\n|^)` anchor of pattern 1: `\s*1[\)\.]` then the lazy
group 1 / two-marker / group 2 tail. -/
def pat1AfterAnchor (l : List Char) : Option (List Char × List Char) :=
  match l.dropWhile isPySpace with
  | '1' :: c :: rest =>
    if c = ')' || c = '.' then findTwoMarker rest else none
  | _ => none

/-- Leftmost-match scan of pattern 1 over `"\n" + text`: anchors are the
positions of newline characters (the prepended newline covers the `^`
branch of `(?:\n|^)`). -/
def pat1Scan : List Char → Option (List Char × List Char)
  | [] => none
  | c :: rest =>
    if c = '\n' then
      match pat1AfterAnchor rest with
      | some r => some r
      | none => pat1Scan rest
    else pat1Scan rest

/-- `re.search(r"(?:\n|^)\s*1[\)\.]([\s\S]*?)(?:\n\s*2[\)\.])([\s\S]*)",
"\n" + text)` (app.py line 110).  Returns (group 1, group 2). -/
def pat1Search (text : List Char) : Option (List Char × List Char) :=
  pat1Scan ('\n' :: text)

/-- Case-insensitive literal-prefix test (ASCII case folding), the semantics
of a literal under `re.I`.  `pat` is given in lowercase. -/
def ciStarts (pat : List Char) (l : List Char) : Bool :=
  (l.take pat.length).map Char.toLower == pat

/-- Consume an optional `:` or `-` (the `[:\-]?` of patterns and headings). -/
def dropOptColonDash : List Char → List Char
  | c :: r => if c = ':' || c = '-' then r else c :: r
  | [] => []

/-- The heading alternation of pattern 2 at the current position:
`Edit notes[:\-]?`, `Key edits[:\-]?` or `2[\)\.]` (case-insensitive).
Returns the remainder after the heading (the start of group 2). -/
def pat2Heading (l : List Char) : Option (List Char) :=
  if ciStarts (cs "edit notes") l then some (dropOptColonDash (l.drop 10))
  else if ciStarts (cs "key edits") l then some (dropOptColonDash (l.drop 9))
  else
    match l with
    | '2' :: c :: r => if c = ')' || c = '.' then some r else none
    | _ => none

/-- Gap test of pattern 2 at a candidate end of group 1: the following
maximal whitespace run must be nonempty and end with a newline (so that
`\s*\n+` can match it), and a heading must follow. -/
def gapCheckAt (l : List Char) : Option (List Char) :=
  match l with
  | [] => none
  | c :: _ =>
    if isPySpace c then
      if (l.takeWhile isPySpace).getLast? = some '\n' then
        pat2Heading (l.dropWhile isPySpace)
      else none
    else none

/-- Lazy extension of group 1 of pattern 2 (starting after the maximal
whitespace run that follows `Polished text[:\-]?`): find the smallest end of
group 1 whose gap test succeeds.  Returns (group 1, group 2). -/
def pat2FindSplit : List Char → Option (List Char × List Char)
  | [] => none
  | c :: rest =>
    match gapCheckAt (c :: rest) with
    | some g2 => some ([], g2)
    | none => (pat2FindSplit rest).map (fun x => (c :: x.1, x.2))

/-- Continuation of pattern 2 after the literal `Polished text`:
`[:\-]?\s*(.*?)\s*(?:heading)(group2)`.  The `\s*` before group 1 is
greedy, so group 1 normally starts after the maximal whitespace run `A`;
if no match exists there, backtracking into `A` yields an empty group 1
exactly when `A` ends with a newline and a heading follows immediately. -/
def pat2AfterLit (l : List Char) : Option (List Char × List Char) :=
  let l1 := dropOptColonDash l
  let a := l1.takeWhile isPySpace
  let body := l1.dropWhile isPySpace
  match pat2FindSplit body with
  | some r => some r
  | none =>
    if a.getLast? = some '\n' then
      (pat2Heading body).map (fun g2 => (([] : List Char), g2))
    else none

/-- Leftmost-match scan of pattern 2, app.py line 118:
`re.search(r"Polished text[:\-]?\s*(.*?)\s*(?:\n+Edit notes[:\-]?|\n+Key
edits[:\-]?|\n+2[\)\.])([\s\S]*)", text, flags=re.I|re.S)`. -/
def pat2Search : List Char → Option (List Char × List Char)
  | [] => none
  | c :: rest =>
    match
      (if ciStarts (cs "polished text") (c :: rest) then
        pat2AfterLit ((c :: rest).drop 13)
      else none) with
    | some r => some r
    | none => pat2Search rest

/-- Matcher for `\n\s*2[\)\.]\s*` at the head of the list (pattern 3).
Returns the remainder after the separator. -/
def pat3SplitAt : List Char → Option (List Char)
  | '\n' :: rest =>
    match rest.dropWhile isPySpace with
    | '2' :: c :: tail =>
      if c = ')' || c = '.' then some (tail.dropWhile isPySpace) else none
    | _ => none
  | _ => none

/-- `re.split(r"\n\s*2[\)\.]\s*", text, maxsplit=1)` (app.py line 126),
returned as (part before the separator, part after) when the separator
occurs. -/
def pat3Split : List Char → Option (List Char × List Char)
  | [] => none
  | c :: rest =>
    match pat3SplitAt (c :: rest) with
    | some after => some ([], after)
    | none => (pat3Split rest).map (fun x => (c :: x.1, x.2))

/-- `re.sub(r"^\s*1[\)\.]\s*", "", s)` (app.py line 128): remove one leading
`1)` / `1.` marker with surrounding whitespace, if present. -/
def strip1Marker (s : List Char) : List Char :=
  match s.dropWhile isPySpace with
  | '1' :: c :: rest =>
    if c = ')' || c = '.' then rest.dropWhile isPySpace else s
  | _ => s

/-- `parse_polished_and_notes` (app.py lines 101-133): split the model output
into polished text and edit notes by trying pattern 1, the labeled-heading
pattern 2 and the bare split on `2)` in order; on no match return the
stripped text with empty notes. -/
def parse_polished_and_notes (raw : List Char) : List Char × List (List Char) :=
  let text := pyStrip raw
  match pat1Search text with
  | some (g1, g2) => (pyStrip g1, notesClean1 (pyStrip g2))
  | none =>
    match pat2Search text with
    | some (g1, g2) => (pyStrip g1, notesPlain (pyStrip g2))
    | none =>
      match pat3Split text with
      | some (p0, p1) => (pyStrip (strip1Marker p0), notesPlain p1)
      | none => (text, [])

/-- The break characters of Python `str.splitlines()`. -/
def isLineBreak (c : Char) : Bool :=
  c = '\n' || c = '\r' || c = '\x0b' || c = '\x0c' ||
  c = '\x1c' || c = '\x1d' || c = '\x1e' || c = '\x85' ||
  c = ' ' || c = ' '

/-- Python `str.splitlines()` (keepends = false): `\r\n` counts as one break;
a trailing break produces no empty final line; the empty string yields no
lines. -/
def splitlines : List Char → List (List Char)
  | [] => []
  | '\r' :: '\n' :: r => [] :: splitlines r
  | c :: rest =>
    if isLineBreak c then [] :: splitlines rest
    else
      match splitlines rest with
      | [] => [[c]]
      | l :: ls => (c :: l) :: ls

/-- Number of words of Python `str.split()` (split on whitespace runs,
dropping empty fields). -/
def countWords (l : List Char) : Nat :=
  ((splitRuns isPySpace l).filter (fun s => !s.isEmpty)).length

/-- `"\n".join(lines)`. -/
def joinNL (lines : List (List Char)) : List Char :=
  List.intercalate (cs ("\n")) lines

/-- The tail `\s*(.+)$` of the subject pattern, after `[:\-]` has matched.
`\s*` is greedy (and may cross newlines); `.` excludes newlines; `$` matches
at a line end (before `\n` or at the end).  If the maximal whitespace run
reaches the end of the string, backtracking succeeds exactly when the run
holds a non-newline whitespace character, the last of which then forms the
one-character group.  Returns (group 1, number of characters consumed). -/
def subjTail (l : List Char) : Option (List Char × Nat) :=
  let w := l.takeWhile isPySpace
  let r := l.dropWhile isPySpace
  match r with
  | _ :: _ =>
    let g := r.takeWhile (fun c => c ≠ '\n')
    some (g, w.length + g.length)
  | [] =>
    let wr := w.reverse.dropWhile (fun c => c = '\n')
    match wr with
    | c :: _ => some ([c], wr.length)
    | [] => none

/-- The `\s*[:\-]` piece of the subject pattern: a maximal whitespace run
followed by `:` or `-`.  Returns (remainder, characters consumed). -/
def wsColon (l : List Char) : Option (List Char × Nat) :=
  let w := l.takeWhile isPySpace
  match l.dropWhile isPySpace with
  | c :: rest => if c = ':' || c = '-' then some (rest, w.length + 1) else none
  | _ => none

/-- One anchored attempt of the subject pattern
`(?im)^(?:Subject|Subject Line)\s*[:\-]\s*(.+)$`: the alternation tries
`Subject` (with its continuation) first, then `Subject Line`.  Returns
(group 1, total characters of the match). -/
def subjAt (l : List Char) : Option (List Char × Nat) :=
  if ciStarts (cs "subject") l then
    let r7 := l.drop 7
    let b1 : Option (List Char × Nat) :=
      match wsColon r7 with
      | some (r, u) => (subjTail r).map (fun gn => (gn.1, 7 + u + gn.2))
      | none => none
    match b1 with
    | some x => some x
    | none =>
      if ciStarts (cs " line") r7 then
        match wsColon (r7.drop 5) with
        | some (r, u) => (subjTail r).map (fun gn => (gn.1, 12 + u + gn.2))
        | none => none
      else none
  else none

/-- Multiline leftmost search for the subject pattern: anchors are the start
of the string and every position following a newline.  Returns
(group 1, text before the match, text after the match). -/
def subjScanAux : List Char → Bool → Option (List Char × List Char × List Char)
  | [], _ => none
  | c :: rest, anchor =>
    match (if anchor then subjAt (c :: rest) else none) with
    | some (g, n) => some (g, [], (c :: rest).drop n)
    | none =>
      match subjScanAux rest (c == '\n') with
      | some (g, b, a) => some (g, c :: b, a)
      | none => none

/-- `re.search(r"(?im)^(?:Subject|Subject Line)\s*[:\-]\s*(.+)$", raw,
flags=re.M)` (app.py line 143), with the surrounding parts of `raw`
returned so that the matched line can be excised. -/
def subjSearch (raw : List Char) : Option (List Char × List Char × List Char) :=
  subjScanAux raw true

/-- The implicit-subject heuristic of `extract_subject` (app.py lines
151-156): if the stripped text has more than one line, the first line has
at most 8 words and the second line is blank, the first line is the subject
and the remaining text is the join of the lines from the third onward. -/
def heurSubject (raw : List Char) : Option (List Char × List Char) :=
  match splitlines (pyStrip raw) with
  | l0 :: l1 :: rest =>
    if countWords l0 ≤ 8 && (pyStrip l1).isEmpty then some (l0, joinNL rest)
    else none
  | _ => none

/-- `extract_subject` (app.py lines 135-158): find an explicit
`Subject:`-style line (excising it from the text), else apply the
short-first-line heuristic, else no subject.  The subject is stripped of
whitespace and of all edge quote characters. -/
def extract_subject (raw : List Char) : Option (List Char) × List Char :=
  if raw.isEmpty then (none, raw)
  else
    match subjSearch raw with
    | some (g, before, after) =>
      (some (pyStripQuotes (pyStrip g)), pyStrip (before ++ after))
    | none =>
      match heurSubject raw with
      | some (l0, r) => (some (pyStripQuotes (pyStrip l0)), pyStrip r)
      | none => (none, raw)

/-- `"Email" in context` (case-sensitive substring test, app.py line 193). -/
def listContains (needle : List Char) : List Char → Bool
  | [] => needle.isPrefixOf []
  | c :: rest => needle.isPrefixOf (c :: rest) || listContains needle rest

/-- Whether the context is email-like: `"Email" in context`. -/
def emailCtx (ctx : List Char) : Bool := listContains (cs ("Email")) ctx

/-- The subject gate of the polish handler (app.py lines 190-194): subject
extraction runs only for an email-like context and a nonempty stripped
response; otherwise the subject is `none` and the text is passed on
unchanged. -/
def subjectStage (rawOutput ctx : List Char) : Option (List Char) × List Char :=
  if emailCtx ctx && !rawOutput.isEmpty then extract_subject rawOutput
  else (none, rawOutput)

/-- Head-position test for `split_re`
(`\n\s*2[\)\.]|\n\s*Edit notes[:\-]?|\n\s*Key edits[:\-]?|\n\s*(?:-|\*)(?:\s|$)`,
re.I, app.py line 202): a newline, a maximal whitespace run, then `2)`/`2.`,
an `edit notes`/`key edits` heading, or a `-`/`*` bullet followed by
whitespace or the end of the string. -/
def splitReMarkAt : List Char → Bool
  | '\n' :: rest =>
    let r := rest.dropWhile isPySpace
    if ciStarts (cs "edit notes") r || ciStarts (cs "key edits") r then true
    else
      match r with
      | '2' :: c :: _ => c = ')' || c = '.'
      | c :: r2 =>
        (c = '-' || c = '*') &&
          (match r2 with
           | [] => true
           | d :: _ => isPySpace d)
      | [] => false
  | _ => false

/-- Leftmost match of `split_re`.  Because the separator is a capture group,
the source joins `parts[1:]` back together, which reconstitutes the text
from the start of the first match; so the split is fully described by
(text before the first match, text from the first match on). -/
def splitReFind : List Char → Option (List Char × List Char)
  | [] => none
  | c :: rest =>
    if splitReMarkAt (c :: rest) then some ([], c :: rest)
    else (splitReFind rest).map (fun x => (c :: x.1, x.2))

/-- The cleanup stage of the polish handler (app.py lines 199-217): split the
polished text at the first stray note marker; the part before it (if its
strip is nonempty) replaces the polished text UNCONDITIONALLY; the trailing
part is turned into notes only when the notes so far are empty and the
candidate list is nonempty. -/
def cleanupStep (p : List Char) (n : List (List Char)) :
    List Char × List (List Char) :=
  match splitReFind p with
  | none => (if (pyStrip p).isEmpty then p else pyStrip p, n)
  | some (b, f) =>
    let pb := pyStrip b
    let p2 := if pb.isEmpty then p else pb
    let n2 :=
      if n.isEmpty then
        let cand := notesClean2 (pyStrip f)
        if cand.isEmpty then n else cand
      else n
    (p2, n2)

/-- The fallback chain of the polish handler (app.py lines 219-240), entered
when the polished text is empty: prefer the remaining chunk, then the raw
output, then `str(response).strip()`; the first two have trailing notes
split off as in the cleanup stage (notes are then assigned without a
nonemptiness guard). -/
def fallbackChain (remaining rawOutput responseRepr : List Char)
    (notes : List (List Char)) : List Char × List (List Char) :=
  if !(pyStrip remaining).isEmpty then
    match splitReFind remaining with
    | none => (pyStrip remaining, notes)
    | some (b, f) =>
      (pyStrip b, if notes.isEmpty then notesClean2 (pyStrip f) else notes)
  else if !rawOutput.isEmpty then
    match splitReFind rawOutput with
    | none => (pyStrip rawOutput, notes)
    | some (b, f) =>
      (pyStrip b, if notes.isEmpty then notesClean2 (pyStrip f) else notes)
  else (pyStrip responseRepr, notes)

/-- The decomposition result: optional subject, body, ordered notes. -/
structure DecompResult where
  subject : Option (List Char)
  body : List Char
  notes : List (List Char)
deriving DecidableEq

/-- Assemble the result record from the subject and the final
(polished text, notes) pair, applying the final
`(polished_text or "").strip().strip('"')` of app.py line 243 to the body. -/
def mkResult (subject : Option (List Char))
    (pf : List Char × List (List Char)) : DecompResult :=
  { subject := subject, body := pyStripQuotes (pyStrip pf.1), notes := pf.2 }

/-- The emptiness test and fallback dispatch of app.py lines 219-240 applied
to the output of the cleanup stage, followed by the final normalization. -/
def postFallback (subject : Option (List Char))
    (remaining rawOutput responseRepr : List Char)
    (pc : List Char × List (List Char)) : DecompResult :=
  if pc.1.isEmpty || (pyStrip pc.1).isEmpty then
    mkResult subject (fallbackChain remaining rawOutput responseRepr pc.2)
  else mkResult subject pc

/-- The handler pipeline downstream of the subject gate (app.py lines
196-243): parse, cleanup, fallback chain, final `strip().strip('"')`. -/
def decomposeCore (subject : Option (List Char))
    (remaining rawOutput responseRepr : List Char) : DecompResult :=
  postFallback subject remaining rawOutput responseRepr
    (cleanupStep (parse_polished_and_notes remaining).1
      (parse_polished_and_notes remaining).2)

/-- The full response decomposition of the polish handler (app.py lines
188-243) on the extracted response text `raw`, the selected context, and
`str(response)` (the representation of the response object, used only as
the very last fallback when the response text is empty). -/
def decompose (raw ctx responseRepr : List Char) : DecompResult :=
  decomposeCore (subjectStage (pyStrip raw) ctx).1
    (subjectStage (pyStrip raw) ctx).2 (pyStrip raw) responseRepr

/-- The hexadecimal digits used by Python's JSON encoder for `\u00xx`. -/
def hexDigits : List Char := cs ("0123456789abcdef")

/-- The `n`-th lowercase hexadecimal digit. -/
def hexDigit (n : Nat) : Char := hexDigits.getD n '0'

/-- Value of one hexadecimal digit character, if it is one. -/
def hexVal (c : Char) : Option Nat :=
  if c.isDigit then some (c.toNat - 48)
  else if 'a' ≤ c && c ≤ 'f' then some (c.toNat - 87)
  else if 'A' ≤ c && c ≤ 'F' then some (c.toNat - 55)
  else none

/-- Escaping of one character by `json.dumps(..., ensure_ascii=False)`:
quote, backslash and the control characters below 0x20 are escaped (with
the short forms for backspace, tab, newline, form feed and carriage
return); every other character is emitted untouched. -/
def jsonEscapeChar (c : Char) : List Char :=
  if c = '"' then ['\\', '"']
  else if c = '\\' then ['\\', '\\']
  else if c = '\n' then ['\\', 'n']
  else if c = '\t' then ['\\', 't']
  else if c = '\r' then ['\\', 'r']
  else if c.toNat = 8 then ['\\', 'b']
  else if c.toNat = 12 then ['\\', 'f']
  else if c.toNat < 32 then
    '\\' :: 'u' :: '0' :: '0' :: hexDigit (c.toNat / 16) :: [hexDigit (c.toNat % 16)]
  else [c]

/-- The escaped content of a JSON string. -/
def jsonEncodeBody (s : List Char) : List Char :=
  s.foldr (fun c acc => jsonEscapeChar c ++ acc) []

/-- A JSON string literal for `s`. -/
def jsonEncodeString (s : List Char) : List Char :=
  '"' :: (jsonEncodeBody s ++ ['"'])

/-- The element separator / closing part of `json.dumps` for a list: the
default separator is a comma followed by one space, and the list is closed
by a bracket. -/
def jsonDumpsRest : List (List Char) → List Char
  | [] => [']']
  | y :: ys => ',' :: ' ' :: (jsonEncodeString y ++ jsonDumpsRest ys)

/-- `json.dumps(xs, ensure_ascii=False)` for a list of strings
(storage_sqlite.py line 59). -/
def json_dumps_strlist : List (List Char) → List Char
  | [] => cs ("[]")
  | x :: xs => '[' :: (jsonEncodeString x ++ jsonDumpsRest xs)

/-- Prepend a character to the first string of a list of strings. -/
def consHead (c : Char) : List (List Char) → List (List Char)
  | [] => [[c]]
  | s :: ss => (c :: s) :: ss

/-- Standard JSON deserialization of the tail of a list-of-strings document,
positioned just after an opening string quote: decode escape sequences,
close the current string at an unescaped quote, and continue after a
comma-space separator or finish at the closing bracket. -/
def jsonElems : List Char → Option (List (List Char))
  | [] => none
  | c :: r =>
    if c = '"' then
      match r with
      | ']' :: [] => some [[]]
      | ',' :: ' ' :: '"' :: r2 => (jsonElems r2).map (fun xs => [] :: xs)
      | _ => none
    else if c = '\\' then
      match r with
      | [] => none
      | e :: r1 =>
        if e = '"' then (jsonElems r1).map (consHead '"')
        else if e = '\\' then (jsonElems r1).map (consHead '\\')
        else if e = 'n' then (jsonElems r1).map (consHead '\n')
        else if e = 't' then (jsonElems r1).map (consHead '\t')
        else if e = 'r' then (jsonElems r1).map (consHead '\r')
        else if e = 'b' then (jsonElems r1).map (consHead (Char.ofNat 8))
        else if e = 'f' then (jsonElems r1).map (consHead (Char.ofNat 12))
        else if e = 'u' then
          match r1 with
          | h1 :: h2 :: h3 :: h4 :: r4 =>
            match hexVal h1, hexVal h2, hexVal h3, hexVal h4 with
            | some a, some b, some c2, some d =>
              (jsonElems r4).map (consHead (Char.ofNat (((a * 16 + b) * 16 + c2) * 16 + d)))
            | _, _, _, _ => none
          | _ => none
        else none
    else (jsonElems r).map (consHead c)

/-- Standard JSON deserialization of a list-of-strings document, the
`deserialized from JSON` reading of the stored `notes` column. -/
def json_loads_strlist (l : List Char) : Option (List (List Char)) :=
  match l with
  | '[' :: rest =>
    match rest with
    | ']' :: [] => some []
    | '"' :: r => jsonElems r
    | _ => none
  | _ => none

/-- One row of the `records` table (storage_sqlite.py lines 9-25).  Columns
bound to a Python value that may be `None` are `Option` (SQLite stores
NULL); columns the insert coalesces with `or ""` / `or []` are plain. -/
structure RecordRow where
  timestamp : List Char
  session_id : Option (List Char)
  input_text : Option (List Char)
  language : Option (List Char)
  context : Option (List Char)
  tone : Option (List Char)
  model : Option (List Char)
  subject : List Char
  polished_text : List Char
  notes : List Char
  input_len : Nat
  output_len : Nat
deriving DecidableEq

/-- `save_record` (storage_sqlite.py lines 44-66) on a store modelled as the
list of rows of the `records` table.  The UTC timestamp the function reads
from the clock (`datetime.utcnow().isoformat()`) is passed as the explicit
parameter `ts`.  `subject or ""` and `polished_text or ""` coalesce `None`
to the empty string; `notes or []` coalesces `None` before serialization;
`input_text` itself is inserted UNCOALESCED, while the length metrics are
computed from the coalesced strings. -/
def save_record (db : List RecordRow) (ts : List Char)
    (session_id : Option (List Char)) (input_text : Option (List Char))
    (language : Option (List Char)) (context : Option (List Char))
    (tone : Option (List Char)) (model : Option (List Char))
    (subject : Option (List Char)) (polished_text : Option (List Char))
    (notes : Option (List (List Char))) : List RecordRow :=
  db ++ [{ timestamp := ts
           session_id := session_id
           input_text := input_text
           language := language
           context := context
           tone := tone
           model := model
           subject := subject.getD []
           polished_text := polished_text.getD []
           notes := json_dumps_strlist (notes.getD [])
           input_len := (input_text.getD []).length
           output_len := (polished_text.getD []).length }]

/-- No matcher of the decomposition pipeline fires on the (stripped) text:
no explicit subject line, no implicit-subject heuristic, none of the three
body/notes patterns, and no stray-marker occurrence for the cleanup split.
This is the formal reading of a response "with no recognizable structure". -/
def noStructure (t : List Char) : Prop :=
  subjSearch t = none ∧ heurSubject t = none ∧ pat1Search t = none ∧
  pat2Search t = none ∧ pat3Split t = none ∧ splitReFind t = none

instance (t : List Char) : Decidable (noStructure t) := by
  unfold noStructure; infer_instance

theorem dropWhile_self (p : Char → Bool) (l : List Char) :
    (l.dropWhile p).dropWhile p = l.dropWhile p := by
  induction l with
  | nil => rfl
  | cons c rest ih =>
    by_cases h : p c <;> simp [List.dropWhile_cons, h, ih]

theorem rstripP_self (p : Char → Bool) (l : List Char) :
    rstripP p (rstripP p l) = rstripP p l := by
  induction l with
  | nil => rfl
  | cons c rest ih =>
    show rstripP p (rstripP p (c :: rest)) = rstripP p (c :: rest)
    rw [show rstripP p (c :: rest)
          = (if (rstripP p rest).isEmpty then (if p c then [] else [c])
             else c :: rstripP p rest) from rfl]
    by_cases h : (rstripP p rest).isEmpty
    · by_cases hc : p c
      · simp [h, hc, rstripP]
      · simp [h, hc, rstripP]
    · simp only [h, if_false, Bool.false_eq_true]
      rw [show rstripP p (c :: rstripP p rest)
            = (if (rstripP p (rstripP p rest)).isEmpty then (if p c then [] else [c])
               else c :: rstripP p (rstripP p rest)) from rfl]
      rw [ih]
      simp [h]

theorem dropWhile_rstripP (p : Char → Bool) (l : List Char)
    (h : l.dropWhile p = l) :
    (rstripP p l).dropWhile p = rstripP p l := by
  cases l with
  | nil => rfl
  | cons c rest =>
    have hc : p c = false := by
      by_contra hcc
      have hc2 : p c = true := by revert hcc; cases p c <;> simp
      rw [List.dropWhile_cons, hc2, if_pos rfl] at h
      have := congrArg List.length h
      have hlen := List.Sublist.length_le (List.dropWhile_sublist (l := rest) p)
      simp at this
      omega
    show (rstripP p (c :: rest)).dropWhile p = rstripP p (c :: rest)
    rw [show rstripP p (c :: rest)
          = (if (rstripP p rest).isEmpty then (if p c then [] else [c])
             else c :: rstripP p rest) from rfl]
    by_cases he : (rstripP p rest).isEmpty
    · simp [he, hc, List.dropWhile_cons]
    · simp [he, hc, List.dropWhile_cons]

theorem stripP_idem (p : Char → Bool) (l : List Char) :
    stripP p (stripP p l) = stripP p l := by
  unfold stripP
  rw [dropWhile_rstripP p (l.dropWhile p) (dropWhile_self p l), rstripP_self]

theorem pyStrip_idem (l : List Char) : pyStrip (pyStrip l) = pyStrip l :=
  stripP_idem isPySpace l

theorem extract_subject_noMatch (t : List Char)
    (h1 : subjSearch t = none) (h2 : heurSubject t = none) :
    extract_subject t = (none, t) := by
  unfold extract_subject
  by_cases he : t.isEmpty <;> simp [he, h1, h2]

theorem subjectStage_noMatch (t ctx : List Char)
    (h1 : subjSearch t = none) (h2 : heurSubject t = none) :
    subjectStage t ctx = (none, t) := by
  unfold subjectStage
  cases hb : (emailCtx ctx && !t.isEmpty)
  · simp
  · simp [extract_subject_noMatch t h1 h2]

theorem parse_noMatch (r : List Char)
    (h1 : pat1Search (pyStrip r) = none) (h2 : pat2Search (pyStrip r) = none)
    (h3 : pat3Split (pyStrip r) = none) :
    parse_polished_and_notes r = (pyStrip r, []) := by
  unfold parse_polished_and_notes
  simp [h1, h2, h3]

theorem cleanup_noMatch (p : List Char) (n : List (List Char))
    (h : splitReFind p = none) :
    cleanupStep p n = (if (pyStrip p).isEmpty then p else pyStrip p, n) := by
  unfold cleanupStep
  simp [h]

theorem decompose_noStruct (raw ctx rep : List Char)
    (h : noStructure (pyStrip raw)) (hne : pyStrip raw ≠ []) :
    decompose raw ctx rep = ⟨none, pyStripQuotes (pyStrip raw), []⟩ := by
  obtain ⟨h1, h2, h3, h4, h5, h6⟩ := h
  have hid : pyStrip (pyStrip raw) = pyStrip raw := pyStrip_idem raw
  have hne2 : (pyStrip raw).isEmpty = false := by
    cases hl : pyStrip raw with
    | nil => exact absurd hl hne
    | cons a l => rfl
  unfold decompose
  rw [subjectStage_noMatch (pyStrip raw) ctx h1 h2]
  unfold decomposeCore
  simp only
  rw [parse_noMatch (pyStrip raw) (by rw [hid]; exact h3) (by rw [hid]; exact h4)
      (by rw [hid]; exact h5)]
  simp only
  rw [hid]
  rw [cleanup_noMatch (pyStrip raw) [] h6]
  unfold postFallback mkResult
  simp [hne2, hid]

theorem hexVal_hexDigit (n : Nat) (h : n < 16) : hexVal (hexDigit n) = some n := by
  interval_cases n <;> decide

theorem charOfNat_toNat (c : Char) : Char.ofNat c.toNat = c := Char.ofNat_toNat c

theorem elems_enc (s : List Char) : ∀ k xs0,
    jsonElems ('"' :: k) = some ([] :: xs0) →
    jsonElems (jsonEncodeBody s ++ '"' :: k) = some (s :: xs0) := by
  induction s with
  | nil => intro k xs0 h; simpa [jsonEncodeBody] using h
  | cons c s2 ih =>
    intro k xs0 h
    have hb : jsonEncodeBody (c :: s2) = jsonEscapeChar c ++ jsonEncodeBody s2 := rfl
    rw [hb, List.append_assoc]
    have ihk := ih k xs0 h
    by_cases h1 : c = '"'
    · have hesc : jsonEscapeChar c = ['\\', '"'] := by simp [jsonEscapeChar, h1]
      rw [hesc]
      subst h1
      rw [List.cons_append, List.cons_append, List.nil_append, jsonElems.eq_def]
      simp [ihk, consHead]
    · by_cases h2 : c = '\\'
      · have hesc : jsonEscapeChar c = ['\\', '\\'] := by simp [jsonEscapeChar, h1, h2]
        rw [hesc]
        subst h2
        rw [List.cons_append, List.cons_append, List.nil_append, jsonElems.eq_def]
        simp [ihk, consHead]
      · by_cases h3 : c = '\n'
        · have hesc : jsonEscapeChar c = ['\\', 'n'] := by simp [jsonEscapeChar, h1, h2, h3]
          rw [hesc]
          subst h3
          rw [List.cons_append, List.cons_append, List.nil_append, jsonElems.eq_def]
          simp [ihk, consHead]
        · by_cases h4 : c = '\t'
          · have hesc : jsonEscapeChar c = ['\\', 't'] := by
              simp [jsonEscapeChar, h1, h2, h3, h4]
            rw [hesc]
            subst h4
            rw [List.cons_append, List.cons_append, List.nil_append, jsonElems.eq_def]
            simp [ihk, consHead]
          · by_cases h5 : c = '\r'
            · have hesc : jsonEscapeChar c = ['\\', 'r'] := by
                simp [jsonEscapeChar, h1, h2, h3, h4, h5]
              rw [hesc]
              subst h5
              rw [List.cons_append, List.cons_append, List.nil_append, jsonElems.eq_def]
              simp [ihk, consHead]
            · by_cases h6 : c.toNat = 8
              · have hesc : jsonEscapeChar c = ['\\', 'b'] := by
                  simp [jsonEscapeChar, h1, h2, h3, h4, h5, h6]
                have hc : Char.ofNat 8 = c := by rw [← h6, charOfNat_toNat]
                rw [hesc]
                rw [List.cons_append, List.cons_append, List.nil_append, jsonElems.eq_def]
                simp [ihk, consHead]
                exact hc
              · by_cases h7 : c.toNat = 12
                · have hesc : jsonEscapeChar c = ['\\', 'f'] := by
                    simp [jsonEscapeChar, h1, h2, h3, h4, h5, h6, h7]
                  have hc : Char.ofNat 12 = c := by rw [← h7, charOfNat_toNat]
                  rw [hesc]
                  rw [List.cons_append, List.cons_append, List.nil_append, jsonElems.eq_def]
                  simp [ihk, consHead]
                  exact hc
                · by_cases h8 : c.toNat < 32
                  · have hesc : jsonEscapeChar c
                        = '\\' :: 'u' :: '0' :: '0' :: hexDigit (c.toNat / 16)
                          :: [hexDigit (c.toNat % 16)] := by
                      simp [jsonEscapeChar, h1, h2, h3, h4, h5, h6, h7, h8]
                    rw [hesc]
                    have e0 : hexVal '0' = some 0 := by decide
                    have e1 : hexVal (hexDigit (c.toNat / 16)) = some (c.toNat / 16) :=
                      hexVal_hexDigit _ (by omega)
                    have e2 : hexVal (hexDigit (c.toNat % 16)) = some (c.toNat % 16) :=
                      hexVal_hexDigit _ (by omega)
                    have hchar : Char.ofNat (c.toNat / 16 * 16 + c.toNat % 16) = c := by
                      rw [show c.toNat / 16 * 16 + c.toNat % 16 = c.toNat from by omega,
                        charOfNat_toNat]
                    simp only [List.cons_append, List.nil_append]
                    rw [jsonElems.eq_def]
                    simp [e0, e1, e2, ihk, consHead, hchar]
                  · have hesc : jsonEscapeChar c = [c] := by
                      simp [jsonEscapeChar, h1, h2, h3, h4, h5, h6, h7, h8]
                    rw [hesc]
                    rw [List.cons_append, List.nil_append, jsonElems.eq_def]
                    simp [h1, h2, ihk, consHead]

theorem elems_chain (xs : List (List Char)) : ∀ x : List Char,
    jsonElems (jsonEncodeBody x ++ '"' :: jsonDumpsRest xs) = some (x :: xs) := by
  induction xs with
  | nil =>
    intro x
    exact elems_enc x (jsonDumpsRest []) [] (by rfl)
  | cons y ys ih =>
    intro x
    apply elems_enc
    have hr : jsonDumpsRest (y :: ys)
        = ',' :: ' ' :: '"' :: (jsonEncodeBody y ++ '"' :: jsonDumpsRest ys) := by
      simp [jsonDumpsRest, jsonEncodeString, List.append_assoc]
    rw [hr]
    simp [jsonElems, ih y]

theorem json_roundtrip (xs : List (List Char)) :
    json_loads_strlist (json_dumps_strlist xs) = some xs := by
  cases xs with
  | nil => rfl
  | cons x xs2 =>
    have hd : json_dumps_strlist (x :: xs2)
        = '[' :: '"' :: (jsonEncodeBody x ++ '"' :: jsonDumpsRest xs2) := by
      simp [json_dumps_strlist, jsonEncodeString, List.append_assoc]
    rw [hd]
    simp [json_loads_strlist, elems_chain xs2 x]

theorem decomposeCore_subject (s : Option (List Char))
    (rem ro rep : List Char) : (decomposeCore s rem ro rep).subject = s := by
  unfold decomposeCore postFallback mkResult
  split <;> rfl

/-- C1: for every raw response string and every context the decomposition is
total -- every partial operation of the source is guarded, so the Lean
translation is a total function and no exception can be raised -- and when
the (stripped) response exhibits none of the recognizable structure the
body falls back to the raw response text itself (subject to the final
Stage-D normalization, which strips whitespace and edge quotes). -/
theorem c1_total_and_fallback (raw ctx rep : List Char) :
    ∃ r : DecompResult, decompose raw ctx rep = r ∧
      (noStructure (pyStrip raw) → pyStrip raw ≠ [] →
        r = ⟨none, pyStripQuotes (pyStrip raw), []⟩) :=
  ⟨decompose raw ctx rep, rfl, fun h hne => decompose_noStruct raw ctx rep h hne⟩

theorem c1_witness :
    ∃ r : DecompResult,
      decompose (cs ("Thanks for the update, I will review it today."))
          (cs ("Chat message")) (cs ("resp")) = r ∧
      r = ⟨none, cs ("Thanks for the update, I will review it today."), []⟩ := by
  obtain ⟨r, h1, h2⟩ := c1_total_and_fallback
    (cs ("Thanks for the update, I will review it today."))
    (cs ("Chat message")) (cs ("resp"))
  exact ⟨r, h1, (h2 (by decide) (by decide)).trans (by decide)⟩

/-- C2 counterexample: decomposing an empty raw response does NOT yield an
empty body; the handler (app.py line 240) falls back to
`str(response).strip()`, the representation of the response object. -/
theorem c2_counterexample :
    (decompose (cs ("")) (cs ("Email to manager"))
        (cs ("<GenerateContentResponse>"))).body ≠ [] := by decide

/-- C2 amended: for every context, decomposing an empty raw response yields
subject = none and notes = [], raising no exception, but the body is the
stripped-and-quote-stripped `str(response)` placeholder, not the empty
string. -/
theorem c2_amended_empty_input (ctx rep : List Char) :
    decompose [] ctx rep = ⟨none, pyStripQuotes (pyStrip rep), []⟩ := by
  unfold decompose
  rw [show pyStrip [] = [] from rfl]
  rw [show subjectStage [] ctx = (none, []) from by unfold subjectStage; simp]
  unfold decomposeCore
  rw [show parse_polished_and_notes [] = ([], []) from rfl]
  simp only
  rw [show cleanupStep [] [] = ([], []) from rfl]
  unfold postFallback fallbackChain mkResult
  simp [pyStrip_idem, show pyStrip ([] : List Char) = [] from rfl]

/-- C3: for every context that is not email-like, decomposition never
extracts a subject and the text handed to the body/notes stage is the raw
output (the stripped raw response) unchanged, even when the response starts
with a line that looks like a subject line. -/
theorem c3_nonEmail_no_subject (raw ctx rep : List Char)
    (h : emailCtx ctx = false) :
    (decompose raw ctx rep).subject = none ∧
      subjectStage (pyStrip raw) ctx = (none, pyStrip raw) := by
  have hs : subjectStage (pyStrip raw) ctx = (none, pyStrip raw) := by
    unfold subjectStage; rw [h]; simp
  refine ⟨?_, hs⟩
  unfold decompose
  rw [decomposeCore_subject, hs]

theorem c3_witness :
    (decompose (cs ("Subject: Quarterly numbers\n\nAll good."))
        (cs ("Message to manager")) (cs ("r"))).subject = none ∧
      subjectStage (pyStrip (cs ("Subject: Quarterly numbers\n\nAll good.")))
          (cs ("Message to manager"))
        = (none, pyStrip (cs ("Subject: Quarterly numbers\n\nAll good."))) :=
  c3_nonEmail_no_subject _ _ _ (by decide)

/-- C4: for every email-like context, decomposing a response with an explicit
subject line `Subject: Refund request` followed by a blank line and a body
yields the trimmed subject `Refund request`, and the remaining text has the
matched line excised (the stage output is exactly the body, the subject
line being gone, not blanked). -/
theorem c4_email_subject_extracted (ctx rep : List Char)
    (h : emailCtx ctx = true) :
    subjectStage (pyStrip (cs ("Subject: Refund request\n\nI was charged twice.")))
        ctx = (some (cs ("Refund request")), cs ("I was charged twice.")) ∧
    (decompose (cs ("Subject: Refund request\n\nI was charged twice.")) ctx
        rep).subject = some (cs ("Refund request")) := by
  have hs : subjectStage
      (pyStrip (cs ("Subject: Refund request\n\nI was charged twice."))) ctx
      = (some (cs ("Refund request")), cs ("I was charged twice.")) := by
    unfold subjectStage
    rw [h]
    simp only [Bool.true_and]
    decide
  refine ⟨hs, ?_⟩
  unfold decompose
  rw [decomposeCore_subject, hs]

theorem c4_witness :
    subjectStage (pyStrip (cs ("Subject: Refund request\n\nI was charged twice.")))
        (cs ("Email to online seller (e.g. Amazon)"))
      = (some (cs ("Refund request")), cs ("I was charged twice.")) ∧
    (decompose (cs ("Subject: Refund request\n\nI was charged twice."))
        (cs ("Email to online seller (e.g. Amazon)")) (cs ("w"))).subject
      = some (cs ("Refund request")) :=
  c4_email_subject_extracted _ _ (by decide)

/-- C5 counterexample: in the numbered-pair branch the marker class is only
`- digits . )`, so a note starting with `*` keeps its bullet; the claimed
class (which includes `*` and `(`) would have produced `starred note`. -/
theorem c5_counterexample :
    (parse_polished_and_notes (cs ("1) Body\n2) * starred note"))).2
        = [cs ("* starred note")] ∧
      (parse_polished_and_notes (cs ("1) Body\n2) * starred note"))).2
        ≠ [cs ("starred note")] := by decide

/-- C5 amended: the Stage B branches clean notes differently.  The
numbered-pair branch splits on newline runs, discards blank lines and
strips a leading run drawn from `- digits . )` only; the labeled-heading
and bare-split branches split on `[\n\r]` runs and merely trim each line,
leaving enumeration/bullet markers in place. -/
theorem c5_amended_note_cleaning :
    parse_polished_and_notes
        (cs ("1) Hello team,\nPlease review.\n2) - Shortened greeting\n- Removed filler"))
      = (cs ("Hello team,\nPlease review."),
         [cs ("Shortened greeting"), cs ("Removed filler")]) ∧
    parse_polished_and_notes (cs ("Polished text: Hello\n2) - kept marker"))
      = (cs ("Hello"), [cs ("- kept marker")]) ∧
    parse_polished_and_notes (cs ("Intro line\n2) - note A"))
      = (cs ("Intro line"), [cs ("- note A")]) := by decide

/-- C6 counterexample: Stage B already produced the nonempty notes list
`[Note]`, yet the cleanup stage still splits the body `Hello\n- kept?` at
the stray `- ` marker and truncates it to `Hello`; under the claim (split
only when the notes were empty) the body would have stayed intact. -/
theorem c6_counterexample :
    (decompose (cs ("1) Hello\n- kept?\n2) Note")) (cs ("PPT text"))
        (cs ("r"))).notes = [cs ("Note")] ∧
    (decompose (cs ("1) Hello\n- kept?\n2) Note")) (cs ("PPT text"))
        (cs ("r"))).body = cs ("Hello") ∧
    (decompose (cs ("1) Hello\n- kept?\n2) Note")) (cs ("PPT text"))
        (cs ("r"))).body ≠ cs ("Hello\n- kept?") := by decide

/-- C6 amended: when the cleanup stage finds a stray marker it truncates the
body to the stripped pre-marker part UNCONDITIONALLY (whenever that part is
nonempty), regardless of the notes; only the re-parsing of the trailing
part into notes (with the extended `- * digits . ) (` marker class) is
gated on the Stage-B notes being empty and the candidate list nonempty. -/
theorem c6_amended_cleanup (p : List Char) (n : List (List Char))
    (b f : List Char) (hm : splitReFind p = some (b, f))
    (hb : pyStrip b ≠ []) :
    (cleanupStep p n).1 = pyStrip b ∧
    (n ≠ [] → (cleanupStep p n).2 = n) ∧
    (n = [] → notesClean2 (pyStrip f) ≠ [] →
      (cleanupStep p n).2 = notesClean2 (pyStrip f)) := by
  have hbe : (pyStrip b).isEmpty = false := by
    cases hl : pyStrip b with
    | nil => exact absurd hl hb
    | cons a l => rfl
  unfold cleanupStep
  rw [hm]
  refine ⟨by simp [hbe], ?_, ?_⟩
  · intro hn
    have hne : n.isEmpty = false := by
      cases hl : n with
      | nil => exact absurd hl hn
      | cons a l => rfl
    simp [hne]
  · intro hn hc
    have hce : (notesClean2 (pyStrip f)).isEmpty = false := by
      cases hl : notesClean2 (pyStrip f) with
      | nil => exact absurd hl hc
      | cons a l => rfl
    subst hn
    simp [hce]

theorem c6_witness :
    (cleanupStep (cs ("Hello\n- kept?")) [cs ("Note")]).1 = pyStrip (cs ("Hello")) ∧
    ([cs ("Note")] ≠ ([] : List (List Char)) →
      (cleanupStep (cs ("Hello\n- kept?")) [cs ("Note")]).2 = [cs ("Note")]) ∧
    ([cs ("Note")] = ([] : List (List Char)) →
      notesClean2 (pyStrip (cs ("\n- kept?"))) ≠ [] →
      (cleanupStep (cs ("Hello\n- kept?")) [cs ("Note")]).2
        = notesClean2 (pyStrip (cs ("\n- kept?")))) := by
  have h := c6_amended_cleanup (cs ("Hello\n- kept?")) [cs ("Note")]
    (cs ("Hello")) (cs ("\n- kept?")) (by decide) (by decide)
  exact h

/-- C7 counterexample: the final normalization is `strip().strip('"')`,
which removes ALL edge quote characters, not exactly one pair: a resolved
body `""Polished.""` comes out as `Polished.`, not as `"Polished."`. -/
theorem c7_counterexample :
    (decompose (cs ("\"\"Polished.\"\"")) (cs ("Chat message"))
        (cs ("r"))).body = cs ("Polished.") ∧
    (decompose (cs ("\"\"Polished.\"\"")) (cs ("Chat message"))
        (cs ("r"))).body ≠ cs ("\"Polished.\"") := by decide

/-- C7 amended: the final normalization trims whitespace and then strips
every leading and trailing quote character (even unbalanced ones), so a
resolved body of exactly `"Polished."` yields `Polished.`, and so do
doubly-quoted and one-sidedly quoted bodies. -/
theorem c7_amended_quote_stripping :
    (decompose (cs ("\"Polished.\"")) (cs ("PPT text")) (cs ("r"))).body
        = cs ("Polished.") ∧
    (decompose (cs ("\"Polished.")) (cs ("Message to manager")) (cs ("r"))).body
        = cs ("Polished.") ∧
    (decompose (cs ("\"\"\"Polished.\"\"\"")) (cs ("Chat message"))
        (cs ("r"))).body = cs ("Polished.") := by decide

/-- C8 counterexample: a marker-free input that is enclosed in quotes breaks
the round trip as claimed: the body comes back with the quotes stripped, so
`body.strip()` differs from `s.strip()`. -/
theorem c8_counterexample :
    noStructure (pyStrip (cs ("\"Hi there\""))) ∧
      pyStrip ((decompose (cs ("\"Hi there\"")) (cs ("Chat message"))
          (cs ("resp"))).body)
        ≠ pyStrip (cs ("\"Hi there\"")) := by decide

/-- C8 amended: for every input with no recognizable markers (and nonempty
strip), the stripped body equals the input stripped of whitespace and then
of its edge quote characters -- the round trip holds up to the final
quote-stripping of Stage D. -/
theorem c8_amended_roundtrip (s ctx rep : List Char)
    (h : noStructure (pyStrip s)) (hne : pyStrip s ≠ []) :
    pyStrip (decompose s ctx rep).body
      = pyStrip (pyStripQuotes (pyStrip s)) := by
  rw [decompose_noStruct s ctx rep h hne]

theorem c8_witness :
    pyStrip (decompose (cs ("  A plain reply with no markers at all. "))
        (cs ("PPT text")) (cs ("x"))).body
      = pyStrip (pyStripQuotes (pyStrip
          (cs ("  A plain reply with no markers at all. ")))) :=
  c8_amended_roundtrip _ _ _ (by decide) (by decide)

/-- C9: one call to the recorder appends exactly one row; its notes column
deserializes (as JSON) back to the notes list passed in, its length metrics
are the character counts of the strings passed, and its timestamp is the
instant read from the clock at the call (modelled as the explicit `ts`
argument, since `datetime.utcnow()` is an external effect). -/
theorem c9_save_record_row (db : List RecordRow)
    (ts sid lang ctxv tonev mdl itxt pol : List Char)
    (subj : Option (List Char)) (notes : List (List Char)) :
    ∃ row : RecordRow,
      save_record db ts (some sid) (some itxt) (some lang) (some ctxv)
          (some tonev) (some mdl) subj (some pol) (some notes)
        = db ++ [row] ∧
      json_loads_strlist row.notes = some notes ∧
      row.input_len = itxt.length ∧ row.output_len = pol.length ∧
      row.timestamp = ts := by
  refine ⟨_, rfl, ?_, rfl, rfl, rfl⟩
  show json_loads_strlist (json_dumps_strlist notes) = some notes
  exact json_roundtrip notes

/-- C10 counterexample: when `input_text` is `None` the insert stores the
value itself (an SQL NULL), not the empty string; only the length metric is
computed from the coalesced value. -/
theorem c10_counterexample :
    ((save_record [] (cs ("2026-01-01T00:00:00")) (some (cs ("sess"))) none
        (some (cs ("en"))) (some (cs ("Chat message")))
        (some (cs ("More formal"))) (some (cs ("gemini-2.5-flash")))
        none none none).map (fun r => r.input_text)) = [none] ∧
      (none : Option (List Char)) ≠ some [] := by decide

/-- C10 amended: the recorder is total over `None` arguments: `None` notes
are stored as the JSON string `[]`, a `None` subject and `None` polished
text are stored as empty strings (with output length 0), while a `None`
input text is stored as NULL (not the empty string) with input length 0;
no exception can be raised. -/
theorem c10_amended_none_handling (db : List RecordRow) (ts : List Char)
    (sid lang ctxv tonev mdl : Option (List Char)) :
    ∃ row : RecordRow,
      save_record db ts sid none lang ctxv tonev mdl none none none
        = db ++ [row] ∧
      row.notes = cs ("[]") ∧ row.subject = [] ∧ row.polished_text = [] ∧
      row.output_len = 0 ∧ row.input_text = none ∧ row.input_len = 0 :=
  ⟨_, rfl, rfl, rfl, rfl, rfl, rfl, rfl⟩
